import Mathlib

/-!
Verification development for the `ewe`/cove numeric casting library.

The repository ships only documentation modules under `src/` (`lib.rs`,
`docs/motivation.rs`, `docs/testing.rs`, `docs/performance.rs`); the casting
implementation itself (the `cast` entry point, the fallback policies, the
`LossyCastError` type and the bitwise casts) is not part of the sources
provided.  All core definitions below are therefore modelled from the
specification (`spec.md`), faithful to its words, and the claims are settled
against this model.
-/

namespace Cove

/-- Modelled from the spec: missing source for the error type (§3 Lossy
Result, §6 `LossyCastError { from: Src, to: Dst }`).  An immutable pair of
the original source value and the lossy destination value.  Rust's field
name `from` is a Lean keyword, hence `from_`/`to_`. -/
structure LossyCastError (α β : Type) where
  from_ : α
  to_ : β
deriving DecidableEq

instance exceptDecEq {ε α : Type} [DecidableEq ε] [DecidableEq α] :
    DecidableEq (Except ε α) := fun a b =>
  match a, b with
  | .ok x, .ok y =>
    if h : x = y then isTrue (by rw [h])
    else isFalse (by intro hh; injection hh; contradiction)
  | .ok _, .error _ => isFalse (by intro hh; exact Except.noConfusion hh)
  | .error _, .ok _ => isFalse (by intro hh; exact Except.noConfusion hh)
  | .error x, .error y =>
    if h : x = y then isTrue (by rw [h])
    else isFalse (by intro hh; injection hh; contradiction)

/-- Modelled from the spec: a numeric integer kind of the closed type
universe (§3 Numeric Kind) — signedness plus bit width, determining the
representable range. -/
structure IntKind where
  signed : Bool
  width : Nat
deriving DecidableEq

/-- Smallest representable value of an integer kind. -/
def IntKind.minVal (k : IntKind) : Int :=
  if k.signed then -(2 ^ (k.width - 1) : Int) else 0

/-- Largest representable value of an integer kind. -/
def IntKind.maxVal (k : IntKind) : Int :=
  if k.signed then (2 ^ (k.width - 1) : Int) - 1 else (2 ^ k.width : Int) - 1

/-- Modelled from the spec: the raw, unchecked reinterpreting conversion
(Rust `as`) between integer kinds — two's-complement wrapping into the
destination kind (§3 Lossy Result invariant). -/
def IntKind.wrap (k : IntKind) (v : Int) : Int :=
  if k.signed then (v + 2 ^ (k.width - 1)) % 2 ^ k.width - 2 ^ (k.width - 1)
  else v % 2 ^ k.width

/-- Clamp a value into the representable range of an integer kind. -/
def clampTo (k : IntKind) (v : Int) : Int :=
  max k.minVal (min k.maxVal v)

/-- The unsigned 8-bit kind (`u8`). -/
def u8k : IntKind := ⟨false, 8⟩

/-- The unsigned 16-bit kind (`u16`). -/
def u16k : IntKind := ⟨false, 16⟩

/-- The signed 16-bit kind (`i16`). -/
def i16k : IntKind := ⟨true, 16⟩

/-- The signed 32-bit kind (`i32`). -/
def i32k : IntKind := ⟨true, 32⟩

/-- The unsigned 32-bit kind (`u32`). -/
def u32k : IntKind := ⟨false, 32⟩

/-- Modelled from the spec: the missing `cast` entry point restricted to
integer→integer pairs (§4.1).  Values of every integer kind are carried as
mathematical integers, so exactness is precisely membership in the
destination range; the lossy value is the raw wrapping conversion. -/
def castII (dst : IntKind) (v : Int) : Except (LossyCastError Int Int) Int :=
  if dst.minVal ≤ v ∧ v ≤ dst.maxVal then .ok v else .error ⟨v, dst.wrap v⟩

/-- Modelled from the spec: the Always-Exact classification for
integer→integer pairs (§3 Conversion Classification) — every source value is
numerically representable in the destination, i.e. range inclusion. -/
def alwaysExactII (src dst : IntKind) : Bool :=
  decide (dst.minVal ≤ src.minVal) && decide (src.maxVal ≤ dst.maxVal)

/-! ### IEEE-754 single-precision model

An `f32` value is modelled by its 32-bit pattern (a `Nat` below `2 ^ 32`),
decoded exactly: bit 31 is the sign, bits 30–23 the biased exponent, bits
22–0 the fraction.  A finite value is `± m · 2 ^ (e - 150)` where `m` is the
(possibly implicit-bit-extended) mantissa. -/

/-- Biased exponent field of an `f32` bit pattern. -/
def f32Expo (b : Nat) : Nat := b / 2 ^ 23 % 2 ^ 8

/-- Fraction field of an `f32` bit pattern. -/
def f32Frac (b : Nat) : Nat := b % 2 ^ 23

/-- Sign bit of an `f32` bit pattern. -/
def f32SignBit (b : Nat) : Bool := b / 2 ^ 31 % 2 = 1

/-- Whether the bit pattern encodes a NaN. -/
def f32IsNan (b : Nat) : Bool := f32Expo b = 255 && f32Frac b ≠ 0

/-- Whether the bit pattern encodes an infinity. -/
def f32IsInf (b : Nat) : Bool := f32Expo b = 255 && f32Frac b = 0

/-- Full mantissa (with implicit leading bit for normal numbers) of a finite
`f32` bit pattern. -/
def f32M (b : Nat) : Nat :=
  if f32Expo b = 0 then f32Frac b else 2 ^ 23 + f32Frac b

/-- Effective exponent field of a finite `f32` bit pattern (subnormals share
the exponent of the smallest normals); the encoded magnitude is
`f32M b · 2 ^ (f32E b - 150)`. -/
def f32E (b : Nat) : Nat := if f32Expo b = 0 then 1 else f32Expo b

/-- Whether a finite `f32` bit pattern has a nonzero fractional part. -/
def f32HasFrac (b : Nat) : Bool :=
  if 150 ≤ f32E b then false else f32M b % 2 ^ (150 - f32E b) ≠ 0

/-- Magnitude of a finite `f32` bit pattern truncated toward zero. -/
def f32TruncMag (b : Nat) : Nat :=
  if 150 ≤ f32E b then f32M b * 2 ^ (f32E b - 150)
  else f32M b / 2 ^ (150 - f32E b)

/-- Value of a finite `f32` bit pattern truncated toward zero, as an
integer. -/
def f32TruncInt (b : Nat) : Int :=
  if f32SignBit b then -(f32TruncMag b : Int) else (f32TruncMag b : Int)

/-- Exact rational value of a finite `f32` bit pattern. -/
def f32ValQ (b : Nat) : ℚ :=
  (if f32SignBit b then -1 else 1) * (f32M b : ℚ) * (2 : ℚ) ^ ((f32E b : ℤ) - 150)

/-- Fuel-driven base-2 logarithm (`log2f fuel n` is `⌊log₂ n⌋` for `n ≥ 1`
whenever `n < 2 ^ fuel`); structural so that the kernel can evaluate it. -/
def log2f : Nat → Nat → Nat
  | 0, _ => 0
  | f + 1, n => if n ≤ 1 then 0 else log2f f (n / 2) + 1

/-- Modelled from the spec: the raw, unchecked reinterpreting conversion
(Rust `as`) from an unsigned integer below `2 ^ 64` to `f32` — IEEE-754
round-to-nearest, ties-to-even (§3 Lossy Result invariant, §4.1
integer→float).  Produces the resulting bit pattern. -/
def natToF32bits (n : Nat) : Nat :=
  if n = 0 then 0 else
  let k := log2f 64 n
  if k ≤ 23 then (k + 127) * 2 ^ 23 + (n * 2 ^ (23 - k) - 2 ^ 23)
  else
    let s := k - 23
    let q := n / 2 ^ s
    let r := n % 2 ^ s
    let q' := if 2 ^ (s - 1) < r ∨ (r = 2 ^ (s - 1) ∧ q % 2 = 1) then q + 1 else q
    if q' = 2 ^ 24 then (k + 1 + 127) * 2 ^ 23
    else (k + 127) * 2 ^ 23 + (q' - 2 ^ 23)

/-- Modelled from the spec: the missing `cast` entry point for the
conditionally-exact pair `u32 → f32` (§4.1 integer→float): perform the raw
conversion, then verify exactness by converting the float back to the
integer kind via truncation and comparing with the original. -/
def castU32F32 (n : Nat) : Except (LossyCastError Nat Nat) Nat :=
  if f32TruncInt (natToF32bits n) = (n : Int) then .ok (natToF32bits n)
  else .error ⟨n, natToF32bits n⟩

/-- Modelled from the spec: the raw, unchecked reinterpreting conversion
(Rust `as`) from `f32` to an integer kind — saturating truncation, with NaN
mapped to zero (§4.1 float→integer, "documented saturation-like
placeholder"). -/
def rustAsF32I (dst : IntKind) (b : Nat) : Int :=
  if f32IsNan b then 0
  else if f32IsInf b then (if f32SignBit b then dst.minVal else dst.maxVal)
  else clampTo dst (f32TruncInt b)

/-- Modelled from the spec: the missing `cast` entry point for
float→integer pairs (§4.1): NaN and infinities are unconditionally lossy;
otherwise the cast is exact iff the float has no fractional part and its
value lies within the destination kind's representable range. -/
def castF32I (dst : IntKind) (b : Nat) : Except (LossyCastError Nat Int) Int :=
  if f32IsNan b = true ∨ f32IsInf b = true then .error ⟨b, rustAsF32I dst b⟩
  else if f32HasFrac b = false ∧ dst.minVal ≤ f32TruncInt b ∧ f32TruncInt b ≤ dst.maxVal
    then .ok (f32TruncInt b)
  else .error ⟨b, rustAsF32I dst b⟩

/-- Whether a cast result is the Exact branch. -/
def isExact {ε α : Type} : Except ε α → Bool
  | .ok _ => true
  | .error _ => false

/-! ### Fallback policies -/

/-- Modelled from the spec: the missing accept-lossy policy `.lossy()`
(§4.2) — collapse either branch to its value, the Lossy branch to its
carried lossy value. -/
def lossy {α β : Type} (r : Except (LossyCastError α β) β) : β :=
  match r with
  | .ok v => v
  | .error e => e.to_

/-- Modelled from the spec: the missing round-to-closest policy
`.closest()` for integer→integer casts (§4.3) — Exact values are returned
unchanged; a lossy integer→integer cast is out of range, so "closest"
degenerates to the nearest representable bound. -/
def closest (dst : IntKind) (r : Except (LossyCastError Int Int) Int) : Int :=
  match r with
  | .ok v => v
  | .error e => clampTo dst e.from_

/-- Modelled from the spec: the rounding rule used by the round-to-closest
policy for fractional sources (§4.3) — the mathematically closest integer,
with exact ties resolved away from zero. -/
def closestIntTo (q : ℚ) : ℤ := if 0 ≤ q then round q else -(round (-q))

/-- Modelled from the spec: the missing round-to-closest policy
`.closest()` for `f32`→integer casts (§4.3), using `closestIntTo` and
degenerating to the nearest bound when out of range; a NaN source (which
has no closest value) falls back to zero as for saturation. -/
def closestF32 (dst : IntKind) (r : Except (LossyCastError Nat Int) Int) : Int :=
  match r with
  | .ok v => v
  | .error e =>
    if f32IsNan e.from_ then 0
    else if f32IsInf e.from_ then (if f32SignBit e.from_ then dst.minVal else dst.maxVal)
    else clampTo dst (closestIntTo (f32ValQ e.from_))

/-- Modelled from the spec: the missing saturate-to-bounds policy
`.saturating()` for integer→integer casts (§4.4) — clamp a lossy value to
the destination bound on the side of the original value. -/
def saturating (dst : IntKind) (r : Except (LossyCastError Int Int) Int) : Int :=
  match r with
  | .ok v => v
  | .error e =>
    if dst.maxVal < e.from_ then dst.maxVal
    else if e.from_ < dst.minVal then dst.minVal
    else e.from_

/-- Modelled from the spec: the missing assumed-lossless policy
`.assumed_lossless()` (§4.5).  The build mode is an explicit parameter
(`debug = false` is the optimized/production build); in production it
behaves exactly like accept-lossy, while in a debug build a lossy result
raises a fatal contract violation, modelled as `none`. -/
def assumed_lossless {α β : Type} (debug : Bool)
    (r : Except (LossyCastError α β) β) : Option β :=
  match r with
  | .ok v => some v
  | .error e => if debug then none else some e.to_

/-! ### Bitwise reinterpretation -/

/-- Modelled from the spec: the missing `bitwise_cast::<u32>` on an `f32`
(§4.6) — return the exact 32-bit pattern; total, never lossy. -/
def f32ToBits (b : Nat) : Nat := b % 2 ^ 32

/-- Modelled from the spec: the missing `bitwise_cast::<f32>` on a `u32`
(§4.6) — reinterpret the 32-bit pattern as an `f32`; total, never lossy. -/
def f32OfBits (n : Nat) : Nat := n % 2 ^ 32

/-! ### Textual renderings of the error value -/

/-- Modelled from the spec: the missing human-readable (`Display`)
rendering of `LossyCastError` for the `u32 → f32` pair (§6); an integral
`f32` value is rendered as its integer digits. -/
def displayLossyU32F32 (e : LossyCastError Nat Nat) : String :=
  "Numerical cast was lossy [" ++ toString e.from_ ++ " (u32) -> " ++
    toString (f32TruncInt e.to_) ++ " (f32)]"

/-- Modelled from the spec: the missing structured (`Debug`) rendering of
`LossyCastError` for the `u32 → f32` pair (§6), exposing the two fields
directly; an integral `f32` value is rendered with a trailing `.0`. -/
def debugLossyU32F32 (e : LossyCastError Nat Nat) : String :=
  "LossyCastError \x7b from: " ++ toString e.from_ ++ ", to: " ++
    toString (f32TruncInt e.to_) ++ ".0 \x7d"

/-! ### Helper lemmas -/

theorem IntKind.minVal_le_maxVal (k : IntKind) : k.minVal ≤ k.maxVal := by
  unfold IntKind.minVal IntKind.maxVal
  split_ifs
  · have h : (0 : Int) < 2 ^ (k.width - 1) := pow_pos (by norm_num) _
    omega
  · have h : (0 : Int) < 2 ^ k.width := pow_pos (by norm_num) _
    omega

theorem clampTo_closest (k : IntKind) (v d : Int) (h2 : k.minVal ≤ d)
    (h3 : d ≤ k.maxVal) : |clampTo k v - v| ≤ |d - v| := by
  have hk := k.minVal_le_maxVal
  unfold clampTo
  rcases le_or_lt v k.minVal with hv | hv
  · rw [min_eq_right (hv.trans hk), max_eq_left hv,
      abs_of_nonneg (by omega : (0 : Int) ≤ k.minVal - v),
      abs_of_nonneg (by omega : (0 : Int) ≤ d - v)]
    omega
  · rcases le_or_lt v k.maxVal with hv2 | hv2
    · rw [min_eq_right hv2, max_eq_right hv.le]
      simp [abs_nonneg]
    · rw [min_eq_left hv2.le, max_eq_right hk,
        abs_of_nonpos (by omega : k.maxVal - v ≤ 0),
        abs_of_nonpos (by omega : d - v ≤ 0)]
      omega

theorem closestIntTo_le (q : ℚ) (n : ℤ) :
    |(closestIntTo q : ℚ) - q| ≤ |(n : ℚ) - q| := by
  unfold closestIntTo
  split_ifs with h
  · have h1 := round_le q n
    rwa [abs_sub_comm q, abs_sub_comm q] at h1
  · have h1 := round_le (-q) (-n)
    have e1 : (-q) - (((-n : ℤ)) : ℚ) = (n : ℚ) - q := by push_cast; ring
    have e2 : (-q) - ((round (-q) : ℤ) : ℚ) = ((-(round (-q)) : ℤ) : ℚ) - q := by
      push_cast; ring
    rwa [e1, e2] at h1

theorem round_tie_eval (k : ℤ) : round ((k : ℚ) + 1 / 2) = k + 1 := by
  rw [round_eq]
  have h : (k : ℚ) + 1 / 2 + 1 / 2 = ((k + 1 : ℤ) : ℚ) := by push_cast; ring
  rw [h, Int.floor_intCast]

theorem closestIntTo_tie_pos (k : ℤ) (hk : 0 ≤ k) :
    closestIntTo ((k : ℚ) + 1 / 2) = k + 1 := by
  have hq : (0 : ℚ) ≤ (k : ℚ) := by exact_mod_cast hk
  unfold closestIntTo
  rw [if_pos (by linarith), round_tie_eval]

theorem closestIntTo_tie_neg (k : ℤ) (hk : 0 ≤ k) :
    closestIntTo (-((k : ℚ) + 1 / 2)) = -(k + 1) := by
  have hq : (0 : ℚ) ≤ (k : ℚ) := by exact_mod_cast hk
  unfold closestIntTo
  rw [if_neg (by push_neg; linarith), neg_neg, round_tie_eval]

/-! ### Claim theorems -/

/-- Claim C1: for the conditionally-exact pair `u32 → f32`, classification
follows exact representability rather than magnitude: casting `16_777_217`
returns the Lossy branch (its raw converted value is `16777216.0`), while
casting `16_777_218` returns Exact with value `16_777_218.0` (an integral
bit pattern whose truncated value is `16777218` with no fractional
part). -/
theorem c1_u32_to_f32_exact_representability :
    castU32F32 16777217 = .error ⟨16777217, natToF32bits 16777217⟩ ∧
    f32TruncInt (natToF32bits 16777217) = 16777216 ∧
    f32HasFrac (natToF32bits 16777217) = false ∧
    castU32F32 16777218 = .ok (natToF32bits 16777218) ∧
    f32TruncInt (natToF32bits 16777218) = 16777218 ∧
    f32HasFrac (natToF32bits 16777218) = false := by
  refine ⟨by decide, by decide, by decide, by decide, by decide, by decide⟩

/-- Claim C2: a `f32 → integer` cast returns Exact iff the source float is
finite (not NaN, not infinite), has no fractional part, and its value lies
within the destination kind's representable range; NaN and infinities are
always Lossy; `41.0f32` cast to `u8` returns Exact with value `41`. -/
theorem c2_f32_to_int_exactness :
    (∀ (dst : IntKind) (b : Nat),
      isExact (castF32I dst b) = true ↔
        (f32IsNan b = false ∧ f32IsInf b = false ∧ f32HasFrac b = false ∧
          dst.minVal ≤ f32TruncInt b ∧ f32TruncInt b ≤ dst.maxVal)) ∧
    (∀ (dst : IntKind) (b : Nat), f32IsNan b = true ∨ f32IsInf b = true →
      isExact (castF32I dst b) = false) ∧
    castF32I u8k (natToF32bits 41) = .ok 41 := by
  refine ⟨?_, ?_, by decide⟩
  · intro dst b
    unfold castF32I
    split_ifs with h1 h2
    · refine iff_of_false (by simp [isExact]) ?_
      rintro ⟨hn, hi, -⟩
      rcases h1 with h | h
      · rw [h] at hn; exact Bool.noConfusion hn
      · rw [h] at hi; exact Bool.noConfusion hi
    · refine iff_of_true rfl ?_
      push_neg at h1
      exact ⟨by simpa using h1.1, by simpa using h1.2, h2.1, h2.2.1, h2.2.2⟩
    · refine iff_of_false (by simp [isExact]) ?_
      rintro ⟨-, -, hf, hlo, hhi⟩
      exact h2 ⟨hf, hlo, hhi⟩
  · intro dst b h
    unfold castF32I
    rw [if_pos h]
    rfl

/-- Witness for claim C2 at a concrete NaN bit pattern (`0x7FC00001`). -/
theorem c2_witness : isExact (castF32I u8k 2143289345) = false :=
  c2_f32_to_int_exactness.2.1 u8k 2143289345 (Or.inl (by decide))

/-- Claim C3: on every Lossy result of every modelled cast, the carried
lossy destination value equals the raw unchecked conversion (Rust `as`) of
the source — two's-complement wrapping for integer→integer, rounded
conversion for `u32 → f32`, saturating truncation for `f32 → integer` —
and the accept-lossy policy returns exactly that value. -/
theorem c3_lossy_value_agreement :
    (∀ (dst : IntKind) (v : Int) (e : LossyCastError Int Int),
      castII dst v = .error e →
        e.from_ = v ∧ e.to_ = dst.wrap v ∧ lossy (castII dst v) = dst.wrap v) ∧
    (∀ (n : Nat) (e : LossyCastError Nat Nat),
      castU32F32 n = .error e →
        e.from_ = n ∧ e.to_ = natToF32bits n ∧
          lossy (castU32F32 n) = natToF32bits n) ∧
    (∀ (dst : IntKind) (b : Nat) (e : LossyCastError Nat Int),
      castF32I dst b = .error e →
        e.from_ = b ∧ e.to_ = rustAsF32I dst b ∧
          lossy (castF32I dst b) = rustAsF32I dst b) := by
  refine ⟨?_, ?_, ?_⟩
  · intro dst v e h
    have he : e = ⟨v, dst.wrap v⟩ := by
      unfold castII at h
      split at h
      · exact Except.noConfusion h
      · exact (Except.error.inj h).symm
    subst he
    exact ⟨rfl, rfl, by rw [h]; rfl⟩
  · intro n e h
    have he : e = ⟨n, natToF32bits n⟩ := by
      unfold castU32F32 at h
      split at h
      · exact Except.noConfusion h
      · exact (Except.error.inj h).symm
    subst he
    exact ⟨rfl, rfl, by rw [h]; rfl⟩
  · intro dst b e h
    have he : e = ⟨b, rustAsF32I dst b⟩ := by
      unfold castF32I at h
      by_cases h1 : f32IsNan b = true ∨ f32IsInf b = true
      · rw [if_pos h1] at h
        exact (Except.error.inj h).symm
      · rw [if_neg h1] at h
        by_cases h2 : f32HasFrac b = false ∧ dst.minVal ≤ f32TruncInt b ∧
            f32TruncInt b ≤ dst.maxVal
        · rw [if_pos h2] at h
          exact Except.noConfusion h
        · rw [if_neg h2] at h
          exact (Except.error.inj h).symm
    subst he
    exact ⟨rfl, rfl, by rw [h]; rfl⟩

/-- Witness for claim C3 at the lossy cast of `300` to `u8`. -/
theorem c3_witness :
    (⟨300, 44⟩ : LossyCastError Int Int).from_ = 300 ∧
    (⟨300, 44⟩ : LossyCastError Int Int).to_ = u8k.wrap 300 ∧
    lossy (castII u8k 300) = u8k.wrap 300 :=
  c3_lossy_value_agreement.1 u8k 300 ⟨300, 44⟩ (by decide)

/-- Claim C4: for every integer→integer pair classified Always-Exact and
every value of the source kind, the cast returns Exact with the original
value, and casting that result back to the source kind again returns Exact
with the original value. -/
theorem c4_always_exact_roundtrip :
    ∀ (src dst : IntKind) (v : Int), alwaysExactII src dst = true →
      src.minVal ≤ v → v ≤ src.maxVal →
      castII dst v = .ok v ∧ castII src v = .ok v := by
  intro src dst v hcls h1 h2
  unfold alwaysExactII at hcls
  simp only [Bool.and_eq_true, decide_eq_true_eq] at hcls
  constructor
  · unfold castII
    rw [if_pos ⟨le_trans hcls.1 h1, le_trans h2 hcls.2⟩]
  · unfold castII
    rw [if_pos ⟨h1, h2⟩]

/-- Witness for claim C4: `u8 → i32` is Always-Exact, and `200` round-trips
exactly. -/
theorem c4_witness : castII i32k 200 = .ok 200 ∧ castII u8k 200 = .ok 200 :=
  c4_always_exact_roundtrip u8k i32k 200 (by decide) (by decide) (by decide)

/-- Claim C5: every modelled cast is a total function into the two-branch
result — for every input it returns either the Exact or the Lossy branch,
never a panic/abort (there is no other outcome in the model). -/
theorem c5_cast_never_panics :
    (∀ (dst : IntKind) (v : Int),
      (∃ w, castII dst v = .ok w) ∨ (∃ e, castII dst v = .error e)) ∧
    (∀ n : Nat,
      (∃ w, castU32F32 n = .ok w) ∨ (∃ e, castU32F32 n = .error e)) ∧
    (∀ (dst : IntKind) (b : Nat),
      (∃ w, castF32I dst b = .ok w) ∨ (∃ e, castF32I dst b = .error e)) := by
  refine ⟨?_, ?_, ?_⟩
  · intro dst v
    cases castII dst v with
    | ok w => exact Or.inl ⟨w, rfl⟩
    | error e => exact Or.inr ⟨e, rfl⟩
  · intro n
    cases castU32F32 n with
    | ok w => exact Or.inl ⟨w, rfl⟩
    | error e => exact Or.inr ⟨e, rfl⟩
  · intro dst b
    cases castF32I dst b with
    | ok w => exact Or.inl ⟨w, rfl⟩
    | error e => exact Or.inr ⟨e, rfl⟩

/-- Claim C6: the closest policy returns Exact values unchanged; on a lossy
integer→integer result it returns the in-range value closest to the
original (the nearest representable bound when the range is exceeded); the
rounding rule used for fractional sources picks the mathematically closest
integer and resolves exact ties away from zero; concretely,
`256i16 → u8` then closest yields `255` and `300u16 → u8` then closest
yields `255`. -/
theorem c6_closest_policy :
    (∀ (dst : IntKind) (v : Int), closest dst (.ok v) = v) ∧
    (∀ (dst : IntKind) (e : LossyCastError Int Int) (d : Int),
      dst.minVal ≤ d → d ≤ dst.maxVal →
      |closest dst (.error e) - e.from_| ≤ |d - e.from_|) ∧
    (∀ (dst : IntKind) (v w : Int), dst.maxVal < v →
      closest dst (.error ⟨v, w⟩) = dst.maxVal) ∧
    (∀ (dst : IntKind) (v w : Int), v < dst.minVal →
      closest dst (.error ⟨v, w⟩) = dst.minVal) ∧
    (∀ (q : ℚ) (n : ℤ), |(closestIntTo q : ℚ) - q| ≤ |(n : ℚ) - q|) ∧
    (∀ k : ℤ, 0 ≤ k → closestIntTo ((k : ℚ) + 1 / 2) = k + 1) ∧
    (∀ k : ℤ, 0 ≤ k → closestIntTo (-((k : ℚ) + 1 / 2)) = -(k + 1)) ∧
    closest u8k (castII u8k 256) = 255 ∧
    closest u8k (castII u8k 300) = 255 := by
  refine ⟨fun dst v => rfl, ?_, ?_, ?_, closestIntTo_le, closestIntTo_tie_pos,
    closestIntTo_tie_neg, by decide, by decide⟩
  · intro dst e d h2 h3
    exact clampTo_closest dst e.from_ d h2 h3
  · intro dst v w h
    show clampTo dst v = dst.maxVal
    unfold clampTo
    rw [min_eq_left h.le, max_eq_right dst.minVal_le_maxVal]
  · intro dst v w h
    show clampTo dst v = dst.minVal
    unfold clampTo
    rw [min_eq_right (h.le.trans dst.minVal_le_maxVal), max_eq_left h.le]

/-- Witness for claim C6: minimality at the lossy cast of `300` to `u8`
against the in-range candidate `255`, and the away-from-zero tie at
`2 + 1/2`. -/
theorem c6_witness :
    (u8k.minVal ≤ 255 ∧ (255 : Int) ≤ u8k.maxVal ∧
      |closest u8k (.error ⟨300, 44⟩) - 300| ≤ |(255 : Int) - 300|) ∧
    ((0 : ℤ) ≤ 2 ∧ closestIntTo (((2 : ℤ) : ℚ) + 1 / 2) = (2 : ℤ) + 1) :=
  ⟨⟨by decide, by decide,
      c6_closest_policy.2.1 u8k ⟨300, 44⟩ 255 (by decide) (by decide)⟩,
    ⟨by decide, c6_closest_policy.2.2.2.2.2.1 2 (by decide)⟩⟩

/-- Claim C7: the saturating policy clamps a lossy integer→integer result
to the destination bound on the side of the original value (Exact values
pass through unchanged); concretely, `300i16 → u8` then saturate yields
`255` and `-5i16 → u8` then saturate yields `0`. -/
theorem c7_saturating_policy :
    (∀ (dst : IntKind) (v : Int), dst.maxVal < v →
      saturating dst (castII dst v) = dst.maxVal) ∧
    (∀ (dst : IntKind) (v : Int), v < dst.minVal →
      saturating dst (castII dst v) = dst.minVal) ∧
    (∀ (dst : IntKind) (v : Int), saturating dst (.ok v) = v) ∧
    saturating u8k (castII u8k 300) = 255 ∧
    saturating u8k (castII u8k (-5)) = 0 := by
  refine ⟨?_, ?_, fun dst v => rfl, by decide, by decide⟩
  · intro dst v h
    unfold castII
    rw [if_neg (fun hc => absurd hc.2 (not_le.2 h))]
    show (if dst.maxVal < v then dst.maxVal
      else if v < dst.minVal then dst.minVal else v) = dst.maxVal
    rw [if_pos h]
  · intro dst v h
    have hk := dst.minVal_le_maxVal
    unfold castII
    rw [if_neg (fun hc => absurd hc.1 (not_le.2 h))]
    show (if dst.maxVal < v then dst.maxVal
      else if v < dst.minVal then dst.minVal else v) = dst.minVal
    rw [if_neg (by omega), if_pos h]

/-- Witness for claim C7 at the lossy casts of `300` and `-5` to `u8`. -/
theorem c7_witness :
    saturating u8k (castII u8k 300) = u8k.maxVal ∧
    saturating u8k (castII u8k (-5)) = u8k.minVal :=
  ⟨c7_saturating_policy.1 u8k 300 (by decide),
    c7_saturating_policy.2.1 u8k (-5) (by decide)⟩

/-- Claim C8: the assumed-lossless policy diverges by build mode — in a
production build it behaves identically to accept-lossy (returning the raw
lossy value on a lossy cast), while in a debug build the same call on a
lossy cast raises a contract violation (modelled as `none`, terminating the
computation) and passes Exact values through. -/
theorem c8_assumed_lossless_build_modes :
    (∀ (α β : Type) (r : Except (LossyCastError α β) β),
      assumed_lossless false r = some (lossy r)) ∧
    (∀ (α β : Type) (e : LossyCastError α β),
      assumed_lossless true (.error e : Except (LossyCastError α β) β) = none) ∧
    (∀ (α β : Type) (v : β),
      assumed_lossless true (.ok v : Except (LossyCastError α β) β) = some v) ∧
    assumed_lossless false (castII u8k 300) = some 44 ∧
    assumed_lossless true (castII u8k 300) = none := by
  refine ⟨?_, fun α β e => rfl, fun α β v => rfl, by decide, by decide⟩
  intro α β r
  cases r <;> rfl

/-- Claim C9: bitwise reinterpretation round-trips bit-identically — for
every 32-bit pattern (including NaN payloads and both signed zeros),
casting the `f32` to `u32` bits and back returns the original pattern, and
the operations are total plain-valued functions (no Lossy branch
exists). -/
theorem c9_bitwise_roundtrip :
    ∀ b : Nat, b < 2 ^ 32 →
      f32OfBits (f32ToBits b) = b ∧ f32ToBits (f32OfBits b) = b := by
  intro b hb
  unfold f32OfBits f32ToBits
  constructor <;> rw [Nat.mod_eq_of_lt hb, Nat.mod_eq_of_lt hb]

/-- Witness for claim C9 at a NaN payload (`0x7FC00001`) and at negative
zero (`0x80000000`). -/
theorem c9_witness :
    (2143289345 < 2 ^ 32 ∧ f32IsNan 2143289345 = true ∧
      f32OfBits (f32ToBits 2143289345) = 2143289345 ∧
      f32ToBits (f32OfBits 2143289345) = 2143289345) ∧
    (2147483648 < 2 ^ 32 ∧ f32SignBit 2147483648 = true ∧
      f32OfBits (f32ToBits 2147483648) = 2147483648 ∧
      f32ToBits (f32OfBits 2147483648) = 2147483648) :=
  ⟨⟨by decide, by decide, (c9_bitwise_roundtrip 2143289345 (by decide)).1,
      (c9_bitwise_roundtrip 2143289345 (by decide)).2⟩,
    ⟨by decide, by decide, (c9_bitwise_roundtrip 2147483648 (by decide)).1,
      (c9_bitwise_roundtrip 2147483648 (by decide)).2⟩⟩

/-- Claim C10: the error value for the lossy cast `16_777_217u32 → f32`
carries both values, its human-readable rendering is exactly
`Numerical cast was lossy [16777217 (u32) -> 16777216 (f32)]`, and its
structured rendering exposes the two fields directly as
`LossyCastError { from: 16777217, to: 16777216.0 }`. -/
theorem c10_error_renderings :
    castU32F32 16777217 = .error ⟨16777217, natToF32bits 16777217⟩ ∧
    displayLossyU32F32 ⟨16777217, natToF32bits 16777217⟩ =
      "Numerical cast was lossy [16777217 (u32) -> 16777216 (f32)]" ∧
    debugLossyU32F32 ⟨16777217, natToF32bits 16777217⟩ =
      "LossyCastError \x7b from: 16777217, to: 16777216.0 \x7d" := by
  refine ⟨by decide, by decide, by decide⟩

end Cove
